import Mathlib

/-!
Verification of the TextSnake training driver
(`src/TextSnake.pytorch/train_textsnake.py`).

The script wires a dataset loader, a model, a five-term loss, an Adam
optimizer with a learning-rate schedule, checkpointing and logging into
epoch/iteration loops.  We embed the orchestration logic shallowly:

* model parameters / optimizer state are lists of rationals;
* the forward/backward/optimizer-step of the external deep-learning
  library is an oracle function passed to the loop (the loop's own logic
  does not depend on what it computes);
* the per-batch loss values returned by the loss collaborator are an
  oracle as well;
* file and logger output is recorded in explicit event lists.
-/

namespace TextSnake

/-- Model parameter snapshot (`model.state_dict()` values). -/
abbrev ModelState := List ℚ

/-- Optimizer state snapshot (`optimizer.state_dict()` values). -/
abbrev OptState := List ℚ

/-- The five loss terms returned by `criterion(output, ...)` at one batch
(`tr_loss, tcl_loss, sin_loss, cos_loss, radii_loss`). -/
structure LossTerms where
  tr_loss : ℚ
  tcl_loss : ℚ
  sin_loss : ℚ
  cos_loss : ℚ
  radii_loss : ℚ
deriving DecidableEq, Repr

/-- `loss = tr_loss + tcl_loss + sin_loss + cos_loss + radii_loss` (line 74). -/
def LossTerms.total (l : LossTerms) : ℚ :=
  l.tr_loss + l.tcl_loss + l.sin_loss + l.cos_loss + l.radii_loss

/-- An input batch handle.  The tensors inside a batch are consumed only by
the external model/loss collaborators, so the handle is abstract. -/
structure Batch where
  id : ℕ
deriving DecidableEq, Repr

/-- The slice of the configuration singleton (`util.config`) read by the
training driver. -/
structure Cfg where
  dataset : String
  viz : Bool
  viz_freq : ℕ
  display_freq : ℕ
  viz_save_iter : ℕ
  log_freq : ℕ
  save_freq : ℕ
  lr : ℚ
  start_epoch : ℕ
  max_epoch : ℕ
  save_dir : String
  exp_name : String
  net : String
  mgpu : Bool
  resume : Bool
deriving Repr

/-! ### Metric accumulator -/

/-- Modelled from the spec: `AverageMeter` lives in `util.misc`, which is not
among the provided source files.  Spec contract (section 4.1): `update(value)`
adds the value to a running sum and increments the count; the average
property returns `sum / count`. -/
structure AverageMeter where
  sum : ℚ := 0
  count : ℕ := 0
deriving DecidableEq, Repr

/-- `update(value)`: add to the running sum, increment the count. -/
def AverageMeter.update (m : AverageMeter) (v : ℚ) : AverageMeter :=
  { sum := m.sum + v, count := m.count + 1 }

/-- The average property: `sum / count` (in ℚ, division by a zero count
yields 0; the claims only concern non-empty update sequences). -/
def AverageMeter.avg (m : AverageMeter) : ℚ :=
  m.sum / (m.count : ℚ)

/-- A fresh meter followed by one `update(v)` call per list element. -/
def meterOf (vs : List ℚ) : AverageMeter :=
  vs.foldl AverageMeter.update {}

/-! ### Checkpoint manager -/

/-- The third argument of the checkpoint filename: an iteration index or the
sentinel string `"end"` (`save_model`'s `_iter` parameter). -/
inductive IterLabel where
  | num (i : ℕ)
  | endTag
deriving DecidableEq, Repr

def IterLabel.render : IterLabel → String
  | .num i => toString i
  | .endTag => "end"

/-- The record serialized by `save_model` (lines 35-40):
`{'lr': lr, 'epoch': epoch, 'model': ..., 'optimizer': ...}`. -/
structure StateDict where
  lr : ℚ
  epoch : ℕ
  model : ModelState
  optimizer : OptState
deriving DecidableEq, Repr

/-- A checkpoint file as written by `torch.save(state_dict, save_path)`.
The `label` field is the `_iter` argument the file was saved with; it is
also encoded in `path`. -/
structure Checkpoint where
  path : String
  label : IterLabel
  state_dict : StateDict
deriving DecidableEq, Repr

/-- `save_model(model, epoch, lr, optimzer, _iter)` (lines 27-41): builds
`<save_dir>/<exp_name>/textsnake_<backbone>_<epoch>_<iter>.pth` and the
four-field state dict.  Under `cfg.mgpu` the source reads
`model.module.state_dict()` instead of `model.state_dict()`; both denote the
same parameter snapshot here. -/
def save_model (cfg : Cfg) (model : ModelState) (epoch : ℕ) (lr : ℚ)
    (optimzer : OptState) (iter : IterLabel) : Checkpoint :=
  { path := cfg.save_dir ++ "/" ++ cfg.exp_name ++ "/textsnake_" ++ cfg.net
      ++ "_" ++ toString epoch ++ "_" ++ iter.render ++ ".pth"
    label := iter
    state_dict :=
      { lr := lr, epoch := epoch, model := model, optimizer := optimzer } }

/-- `load_model(model, model_path)` (lines 44-47): deserializes the state
dict and executes `model.load_state_dict(state_dict['model'])`.  The first
component is the model's parameter state after the call; the second is the
Python return value (`None`).  The `epoch`, `lr` and `optimizer` fields of
the record are not read, and no optimizer object is even passed in. -/
def load_model (model : ModelState) (state_dict : StateDict) :
    ModelState × Unit :=
  (state_dict.model, ())

/-! ### Learning-rate scheduler -/

/-- The two schedule policies selected in `main` (lines 245-248):
`FixLR(optimizer)` for `synth-text`, else
`lr_scheduler.StepLR(optimizer, step_size=100, gamma=0.1)`. -/
inductive SchedPolicy where
  | stepLR (step_size : ℕ) (gamma : ℚ)
  | fixLR
deriving DecidableEq, Repr

/-- Modelled from the spec: neither `torch.optim.lr_scheduler.StepLR` nor
`util.shedule.FixLR` is among the provided source files.  Spec (section 4.5):
the step-decay schedule multiplies the learning rate by `gamma` once every
`step_size` completed epochs, the fixed schedule is a no-op; `last_epoch`
counts completed `step()` calls. -/
structure Scheduler where
  policy : SchedPolicy
  base_lr : ℚ
  last_epoch : ℕ := 0
deriving DecidableEq, Repr

/-- `scheduler.get_lr()`: the current learning rate. -/
def Scheduler.get_lr (s : Scheduler) : ℚ :=
  match s.policy with
  | .stepLR step_size gamma => s.base_lr * gamma ^ (s.last_epoch / step_size)
  | .fixLR => s.base_lr

/-- `scheduler.step()`: advance by one epoch. -/
def Scheduler.step (s : Scheduler) : Scheduler :=
  { s with last_epoch := s.last_epoch + 1 }

/-! ### Observable output -/

/-- The six per-term text log files in the experiment directory
(lines 93-104 and 163-174). -/
inductive LogFileName where
  | tr_loss_result
  | tcl_loss_result
  | sin_result
  | cos_result
  | radii_result
  | loss_result
deriving DecidableEq, Repr

/-- Contents of the six log files, as lists of appended lines. -/
abbrev LogFiles := LogFileName → List String

/-- Left-pad a numeral string to four digits, for the fractional part of a
`{:.4f}` rendering. -/
def pad4 (n : ℕ) : String :=
  let s := toString n
  String.mk (List.replicate (4 - s.length) '0') ++ s

/-- Python's `'{:.4f}'.format(v)`: the value with exactly four digits after
the decimal point (rounding to nearest; the tie-breaking rule of the float
formatter is immaterial to the properties proved here). -/
def fmt4 (q : ℚ) : String :=
  let scaled : ℤ := round (q * 10000)
  let sign := if scaled < 0 then "-" else ""
  sign ++ toString (scaled.natAbs / 10000) ++ "." ++ pad4 (scaled.natAbs % 10000)

/-- One `f.write('{}_{:d}_{:.4f}\n'.format(epoch, i, v))` record of the
training loop (without the trailing newline). -/
def trainLogLine (epoch i : ℕ) (v : ℚ) : String :=
  toString epoch ++ "_" ++ toString i ++ "_" ++ fmt4 v

/-- One `f.write('{}_validation_{:.4f}\n'.format(epoch, v))` record of the
validation loop (without the trailing newline). -/
def valLogLine (epoch : ℕ) (v : ℚ) : String :=
  toString epoch ++ "_validation_" ++ fmt4 v

/-- Append one line to one of the six files (`open(..., "a+")` + `write`). -/
def appendLine (files : LogFiles) (name : LogFileName) (line : String) :
    LogFiles :=
  fun n => if n = name then files n ++ [line] else files n

/-- The per-term value a given log file records. -/
def LogFileName.term : LogFileName → LossTerms → ℚ
  | .tr_loss_result, l => l.tr_loss
  | .tcl_loss_result, l => l.tcl_loss
  | .sin_result, l => l.sin_loss
  | .cos_result, l => l.cos_loss
  | .radii_result, l => l.radii_loss
  | .loss_result, l => l.total

/-- The six appends of the training loop's display block (lines 93-104). -/
def appendTrainLines (epoch i : ℕ) (l : LossTerms) (files : LogFiles) :
    LogFiles :=
  fun n => files n ++ [trainLogLine epoch i (n.term l)]

/-- The six appends of the validation loop's display block (lines 163-174). -/
def appendValLines (epoch : ℕ) (l : LossTerms) (files : LogFiles) :
    LogFiles :=
  fun n => files n ++ [valLogLine epoch (n.term l)]

/-- One `logger.write_scalars(scalars, tag, n_iter)` call. -/
structure ScalarPush where
  scalars : List (String × ℚ)
  tag : String
  n_iter : ℕ
deriving DecidableEq, Repr

/-- The six-entry scalar mapping pushed by both loops. -/
def scalarsOf (l : LossTerms) : List (String × ℚ) :=
  [("loss", l.total), ("tr_loss", l.tr_loss), ("tcl_loss", l.tcl_loss),
   ("sin_loss", l.sin_loss), ("cos_loss", l.cos_loss),
   ("radii_loss", l.radii_loss)]

/-! ### Run state and the two loops -/

/-- The mutable state threaded through the run: the live model and
optimizer, the scheduler, the process-wide iteration counter `train_step`
(line 25), and the observable output accumulated so far. -/
structure RunState where
  model : ModelState
  optimizer : OptState
  sched : Scheduler
  train_step : ℕ
  files : LogFiles
  checkpoints : List Checkpoint
  progress : List (ℕ × ℕ)
  pushes : List ScalarPush
  valCalls : ℕ

/-- The external collaborators the loops call into: `criterion` yields the
five loss terms for the current model on a batch; `backward` is the effect
of `optimizer.zero_grad(); loss.backward(); optimizer.step()` on the model
and optimizer state. -/
structure Oracle where
  criterion : ModelState → Batch → LossTerms
  backward : ModelState → OptState → LossTerms → ModelState × OptState


/-- One iteration of the training loop body (lines 63-116), for batch `b`
at enumeration index `i`: increment the global `train_step`, forward pass
and loss, backward pass and optimizer step, then the three periodic blocks
(progress display plus per-term file appends, iteration checkpoint, scalar
push). -/
def trainIter (cfg : Cfg) (or : Oracle) (epoch : ℕ) (s : RunState)
    (i : ℕ) (b : Batch) : RunState :=
  let l := or.criterion s.model b
  let mo := or.backward s.model s.optimizer l
  let s := { s with train_step := s.train_step + 1,
                    model := mo.1, optimizer := mo.2 }
  let s :=
    if i % cfg.display_freq = 0 then
      { s with progress := s.progress ++ [(epoch, i)],
               files := appendTrainLines epoch i l s.files }
    else s
  let s :=
    if i % cfg.viz_save_iter = 0 then
      { s with checkpoints := s.checkpoints ++
          [save_model cfg s.model epoch s.sched.get_lr s.optimizer (.num i)] }
    else s
  let s :=
    if i % cfg.log_freq = 0 then
      { s with pushes := s.pushes ++
          [{ scalars := scalarsOf l, tag := "train", n_iter := s.train_step }] }
    else s
  s

/-- Fold the iteration body over the enumerated loader, carrying the
enumeration index. -/
def foldIdx {α β : Type} (f : β → ℕ → α → β) : β → ℕ → List α → β
  | s, _, [] => s
  | s, i, a :: as => foldIdx f (f s i a) (i + 1) as

/-- `train(model, train_loader, criterion, scheduler, optimizer, epoch,
logger)` (lines 50-122): the per-batch loop, then the epoch-end checkpoint
(`if epoch % cfg.save_freq == 0`), then `scheduler.step()`. -/
def train (cfg : Cfg) (or : Oracle) (train_loader : List Batch) (epoch : ℕ)
    (s : RunState) : RunState :=
  let s := foldIdx (trainIter cfg or epoch) s 0 train_loader
  let s :=
    if epoch % cfg.save_freq = 0 then
      { s with checkpoints := s.checkpoints ++
          [save_model cfg s.model epoch s.sched.get_lr s.optimizer .endTag] }
    else s
  { s with sched := s.sched.step }

/-- The six fresh `AverageMeter`s of the validation loop (lines 128-133). -/
structure ValMeters where
  losses : AverageMeter := {}
  tr_losses : AverageMeter := {}
  tcl_losses : AverageMeter := {}
  sin_losses : AverageMeter := {}
  cos_losses : AverageMeter := {}
  radii_losses : AverageMeter := {}
deriving DecidableEq, Repr

/-- One iteration of the validation loop body (lines 135-174), threading
the six local meters.  Inside `torch.no_grad()` there is no backward pass
and no optimizer step, so the model, optimizer, scheduler and `train_step`
fields are left untouched. -/
def valIter (cfg : Cfg) (or : Oracle) (epoch : ℕ) (sm : RunState × ValMeters)
    (i : ℕ) (b : Batch) : RunState × ValMeters :=
  let s := sm.1
  let m := sm.2
  let l := or.criterion s.model b
  let m : ValMeters :=
    { losses := m.losses.update l.total,
      tr_losses := m.tr_losses.update l.tr_loss,
      tcl_losses := m.tcl_losses.update l.tcl_loss,
      sin_losses := m.sin_losses.update l.sin_loss,
      cos_losses := m.cos_losses.update l.cos_loss,
      radii_losses := m.radii_losses.update l.radii_loss }
  let s :=
    if i % cfg.display_freq = 0 then
      { s with files := appendValLines epoch l s.files }
    else s
  (s, m)

/-- `validation(model, valid_loader, criterion, epoch, logger)`
(lines 124-187): the batch loop under `torch.no_grad()`, then one
`write_scalars` push of the six averages tagged `val` with the epoch index
as the step.  The ghost field `valCalls` counts invocations of this
function. -/
def validation (cfg : Cfg) (or : Oracle) (valid_loader : List Batch)
    (epoch : ℕ) (s : RunState) : RunState :=
  let s := { s with valCalls := s.valCalls + 1 }
  let sm := foldIdx (valIter cfg or epoch) (s, ({} : ValMeters)) 0 valid_loader
  let s := sm.1
  let m := sm.2
  { s with pushes := s.pushes ++
      [{ scalars := [("loss", m.losses.avg), ("tr_loss", m.tr_losses.avg),
          ("tcl_loss", m.tcl_losses.avg), ("sin_loss", m.sin_losses.avg),
          ("cos_loss", m.cos_losses.avg), ("radii_loss", m.radii_losses.avg)],
         tag := "val", n_iter := epoch }] }

/-! ### Orchestrator -/

/-- A Python `NameError` / unbound-local failure, named by the variable. -/
inductive MainError where
  | nameError (var : String)
deriving DecidableEq, Repr

/-- One epoch of `main`'s driver loop (lines 252-254): `train(...)` then
`if valset: validation(...)`. -/
def epochStep (cfg : Cfg) (or : Oracle) (train_loader val_loader : List Batch)
    (valset : Bool) (s : RunState) (epoch : ℕ) : RunState :=
  let s := train cfg or train_loader epoch s
  if valset then validation cfg or val_loader epoch s else s

/-- The epoch loop of `main` (lines 251-254): `for epoch in
range(cfg.start_epoch, cfg.max_epoch): ...`. -/
def epochLoop (cfg : Cfg) (or : Oracle) (train_loader val_loader : List Batch)
    (valset : Bool) (s : RunState) : RunState :=
  (List.range' cfg.start_epoch (cfg.max_epoch - cfg.start_epoch)).foldl
    (epochStep cfg or train_loader val_loader valset) s

/-- `main()` (lines 190-256).  Returns the list of construction steps
completed, in program order, and either the unbound-variable error or the
final run state.  The dataset selection (lines 194-218) binds `trainset`
(and `valset`) only for `'total-text'` and `'synth-text'`; the `else`
branch is `pass`, so any other name leaves `trainset` unbound and
`data.DataLoader(trainset, ...)` at line 220 raises before anything else is
built.  `model0`/`opt0` stand for the freshly constructed `TextNet` and
Adam states, `resumeDict` for the checkpoint at `cfg.resume` (read only
when `cfg.resume` is set), and `files0` for the on-disk log files, which
persist across runs. -/
def main (cfg : Cfg) (or : Oracle) (model0 : ModelState) (opt0 : OptState)
    (resumeDict : StateDict) (train_batches val_batches : List Batch)
    (files0 : LogFiles) : List String × Except MainError RunState :=
  if cfg.dataset = "total-text" ∨ cfg.dataset = "synth-text" then
    let valset : Bool := cfg.dataset = "total-text"
    let steps := ["train_loader"]
    let steps := if valset then steps ++ ["val_loader"] else steps
    let steps := steps ++ ["logger", "model"]
    let model1 := if cfg.resume then (load_model model0 resumeDict).1 else model0
    let steps := steps ++ ["criterion", "optimizer", "scheduler"]
    let sched : Scheduler :=
      if cfg.dataset = "synth-text" then
        { policy := .fixLR, base_lr := cfg.lr }
      else
        { policy := .stepLR 100 (1 / 10), base_lr := cfg.lr }
    let s0 : RunState :=
      { model := model1, optimizer := opt0, sched := sched, train_step := 0,
        files := files0, checkpoints := [], progress := [], pushes := [],
        valCalls := 0 }
    (steps ++ ["epoch_loop"],
      .ok (epochLoop cfg or train_batches val_batches valset s0))
  else
    ([], .error (.nameError "trainset"))

/-! ### Concrete instances used by witnesses -/

/-- A concrete configuration (witness material). -/
def exCfg (dataset : String) : Cfg :=
  { dataset := dataset, viz := false, viz_freq := 50, display_freq := 2,
    viz_save_iter := 500, log_freq := 1, save_freq := 5, lr := 1 / 10000,
    start_epoch := 0, max_epoch := 3, save_dir := "save", exp_name := "exp",
    net := "vgg", mgpu := false, resume := false }

/-- A concrete model/loss oracle (witness material). -/
def exOracle : Oracle :=
  { criterion := fun m b =>
      { tr_loss := 1, tcl_loss := 1 / 2, sin_loss := 1 / 4,
        cos_loss := (m.length : ℚ), radii_loss := (b.id : ℚ) }
    backward := fun m o _ => (m.map (fun x => x + 1), o) }

/-- Initially empty log files (witness material). -/
def exFiles : LogFiles := fun _ => []

/-- A concrete resume checkpoint record (witness material). -/
def rd0 : StateDict := { lr := 0, epoch := 0, model := [], optimizer := [] }

/-- The run state `main` builds just before its epoch loop, for empty
model/optimizer snapshots, empty log files and a given schedule policy
(witness material). -/
def exState0 (cfg : Cfg) (p : SchedPolicy) : RunState :=
  { model := [], optimizer := [],
    sched := { policy := p, base_lr := cfg.lr }, train_step := 0,
    files := exFiles, checkpoints := [], progress := [], pushes := [],
    valCalls := 0 }

/-- A concrete run state (witness material). -/
def exState : RunState :=
  { model := [0], optimizer := [],
    sched := { policy := .stepLR 100 (1 / 10), base_lr := 1 / 10000 },
    train_step := 0, files := exFiles, checkpoints := [], progress := [],
    pushes := [], valCalls := 0 }

/-- Four concrete batches (witness material). -/
def exBatches4 : List Batch := [⟨0⟩, ⟨1⟩, ⟨2⟩, ⟨3⟩]

/-! ### Derived observations -/

/-- Whether a checkpoint carries the `"end"` iteration label. -/
def IterLabel.isEnd : IterLabel → Bool
  | .endTag => true
  | .num _ => false

/-- The `"end"`-tagged checkpoints written so far, in order. -/
def endCheckpoints (s : RunState) : List Checkpoint :=
  s.checkpoints.filter (fun c => c.label.isEnd)

/-- The step values of the `"train"`-tagged `write_scalars` calls, in
chronological order. -/
def trainPushSteps (s : RunState) : List ℕ :=
  (s.pushes.filter (fun p => p.tag == "train")).map (fun p => p.n_iter)

/-- The global-step invariant: the `"train"` push steps recorded so far are
strictly increasing and bounded by the current `train_step` counter. -/
def StepInv (s : RunState) : Prop :=
  List.Chain' (· < ·) (trainPushSteps s) ∧
    ∀ x ∈ trainPushSteps s, x ≤ s.train_step

/-! ### Structural lemmas about the loops -/

/-- A quantity preserved by every step of `foldIdx` is preserved by the
whole fold. -/
theorem foldIdx_pres {α β γ : Type} (f : β → ℕ → α → β) (g : β → γ)
    (h : ∀ s i a, g (f s i a) = g s) :
    ∀ (bs : List α) (i : ℕ) (s : β), g (foldIdx f s i bs) = g s := by
  intro bs
  induction bs with
  | nil => intro i s; rfl
  | cons b bs ih => intro i s; rw [foldIdx, ih, h]

/-- One training iteration: the scheduler and the validation-call counter
are untouched, and `train_step` is incremented by exactly one. -/
theorem trainIter_frame (cfg : Cfg) (or : Oracle) (e : ℕ) (s : RunState)
    (i : ℕ) (b : Batch) :
    (trainIter cfg or e s i b).sched = s.sched ∧
    (trainIter cfg or e s i b).valCalls = s.valCalls ∧
    (trainIter cfg or e s i b).train_step = s.train_step + 1 := by
  simp only [trainIter]
  split_ifs <;> exact ⟨rfl, rfl, rfl⟩

/-- One training iteration appends to `progress` exactly when the display
interval fires. -/
theorem trainIter_progress (cfg : Cfg) (or : Oracle) (e : ℕ) (s : RunState)
    (i : ℕ) (b : Batch) :
    (trainIter cfg or e s i b).progress =
      s.progress ++ (if i % cfg.display_freq = 0 then [(e, i)] else []) := by
  simp only [trainIter]
  split_ifs <;> simp

/-- One training iteration appends to each log file exactly the display
block's line. -/
theorem trainIter_files (cfg : Cfg) (or : Oracle) (e : ℕ) (s : RunState)
    (i : ℕ) (b : Batch) (n : LogFileName) :
    (trainIter cfg or e s i b).files n =
      s.files n ++ (if i % cfg.display_freq = 0 then
        [trainLogLine e i (n.term (or.criterion s.model b))] else []) := by
  simp only [trainIter]
  split_ifs <;> simp [appendTrainLines]

/-- One training iteration appends only `num`-labelled checkpoints. -/
theorem trainIter_checkpoints (cfg : Cfg) (or : Oracle) (e : ℕ) (s : RunState)
    (i : ℕ) (b : Batch) :
    (trainIter cfg or e s i b).checkpoints =
      s.checkpoints ++ (if i % cfg.viz_save_iter = 0 then
        [save_model cfg (or.backward s.model s.optimizer
            (or.criterion s.model b)).1 e s.sched.get_lr
          (or.backward s.model s.optimizer (or.criterion s.model b)).2
          (.num i)] else []) := by
  simp only [trainIter]
  split_ifs <;> simp

/-- One training iteration appends at most one scalar push, tagged
`"train"` and stepped with the just-incremented `train_step`. -/
theorem trainIter_pushes (cfg : Cfg) (or : Oracle) (e : ℕ) (s : RunState)
    (i : ℕ) (b : Batch) :
    (trainIter cfg or e s i b).pushes =
      s.pushes ++ (if i % cfg.log_freq = 0 then
        [{ scalars := scalarsOf (or.criterion s.model b), tag := "train",
           n_iter := s.train_step + 1 }] else []) := by
  simp only [trainIter]
  split_ifs <;> simp

/-- One validation iteration touches nothing in the run state except the
log files. -/
theorem valIter_frame (cfg : Cfg) (or : Oracle) (e : ℕ)
    (sm : RunState × ValMeters) (i : ℕ) (b : Batch) :
    ((valIter cfg or e sm i b).1.model, (valIter cfg or e sm i b).1.optimizer,
     (valIter cfg or e sm i b).1.sched, (valIter cfg or e sm i b).1.train_step,
     (valIter cfg or e sm i b).1.checkpoints,
     (valIter cfg or e sm i b).1.progress, (valIter cfg or e sm i b).1.pushes,
     (valIter cfg or e sm i b).1.valCalls)
    = (sm.1.model, sm.1.optimizer, sm.1.sched, sm.1.train_step,
       sm.1.checkpoints, sm.1.progress, sm.1.pushes, sm.1.valCalls) := by
  simp only [valIter]
  split_ifs <;> rfl

/-- One validation iteration appends to each log file exactly the display
block's `"validation"`-marked line. -/
theorem valIter_files (cfg : Cfg) (or : Oracle) (e : ℕ)
    (sm : RunState × ValMeters) (i : ℕ) (b : Batch) (n : LogFileName) :
    (valIter cfg or e sm i b).1.files n =
      sm.1.files n ++ (if i % cfg.display_freq = 0 then
        [valLogLine e (n.term (or.criterion sm.1.model b))] else []) := by
  simp only [valIter]
  split_ifs <;> simp [appendValLines]

/-- The whole validation batch loop preserves every run-state field except
the log files. -/
theorem valFold_frame (cfg : Cfg) (or : Oracle) (e : ℕ) (bs : List Batch)
    (i : ℕ) (sm : RunState × ValMeters) :
    ((foldIdx (valIter cfg or e) sm i bs).1.model,
     (foldIdx (valIter cfg or e) sm i bs).1.optimizer,
     (foldIdx (valIter cfg or e) sm i bs).1.sched,
     (foldIdx (valIter cfg or e) sm i bs).1.train_step,
     (foldIdx (valIter cfg or e) sm i bs).1.checkpoints,
     (foldIdx (valIter cfg or e) sm i bs).1.progress,
     (foldIdx (valIter cfg or e) sm i bs).1.pushes,
     (foldIdx (valIter cfg or e) sm i bs).1.valCalls)
    = (sm.1.model, sm.1.optimizer, sm.1.sched, sm.1.train_step,
       sm.1.checkpoints, sm.1.progress, sm.1.pushes, sm.1.valCalls) :=
  foldIdx_pres (valIter cfg or e)
    (fun sm => (sm.1.model, sm.1.optimizer, sm.1.sched, sm.1.train_step,
      sm.1.checkpoints, sm.1.progress, sm.1.pushes, sm.1.valCalls))
    (fun sm i b => valIter_frame cfg or e sm i b) bs i sm

/-- `validation` leaves the model, optimizer, scheduler, `train_step`,
checkpoints and progress lines untouched; it increments the call counter
and appends exactly one scalar push, tagged `"val"` with the epoch index
as the step. -/
theorem validation_spec (cfg : Cfg) (or : Oracle) (vl : List Batch) (e : ℕ)
    (s : RunState) :
    (validation cfg or vl e s).model = s.model ∧
    (validation cfg or vl e s).optimizer = s.optimizer ∧
    (validation cfg or vl e s).sched = s.sched ∧
    (validation cfg or vl e s).train_step = s.train_step ∧
    (validation cfg or vl e s).checkpoints = s.checkpoints ∧
    (validation cfg or vl e s).progress = s.progress ∧
    (validation cfg or vl e s).valCalls = s.valCalls + 1 ∧
    ∃ p : ScalarPush, p.tag = "val" ∧ p.n_iter = e ∧
      (validation cfg or vl e s).pushes = s.pushes ++ [p] := by
  have h := valFold_frame cfg or e vl 0
    ({ s with valCalls := s.valCalls + 1 }, ({} : ValMeters))
  simp only [Prod.mk.injEq] at h
  obtain ⟨h1, h2, h3, h4, h5, h6, h7, h8⟩ := h
  simp only [validation]
  refine ⟨by rw [h1], by rw [h2], by rw [h3], by rw [h4], by rw [h5],
    by rw [h6], by rw [h8], ?_⟩
  exact ⟨_, rfl, rfl, by rw [h7]⟩

/-- One call to `train` advances the scheduler exactly once, whatever the
loader contents. -/
theorem train_sched (cfg : Cfg) (or : Oracle) (tl : List Batch) (e : ℕ)
    (s : RunState) : (train cfg or tl e s).sched = s.sched.step := by
  have h := foldIdx_pres (trainIter cfg or e) (fun s => s.sched)
    (fun s i b => (trainIter_frame cfg or e s i b).1) tl 0 s
  simp only [train]
  split_ifs <;> simp_all

/-- `train` never calls the validation loop. -/
theorem train_valCalls (cfg : Cfg) (or : Oracle) (tl : List Batch) (e : ℕ)
    (s : RunState) : (train cfg or tl e s).valCalls = s.valCalls := by
  have h := foldIdx_pres (trainIter cfg or e) (fun s => s.valCalls)
    (fun s i b => (trainIter_frame cfg or e s i b).2.1) tl 0 s
  simp only [train]
  split_ifs <;> simp_all

/-- The training fold increments `train_step` once per batch. -/
theorem trainFold_train_step (cfg : Cfg) (or : Oracle) (e : ℕ) :
    ∀ (bs : List Batch) (i : ℕ) (s : RunState),
      (foldIdx (trainIter cfg or e) s i bs).train_step
        = s.train_step + bs.length := by
  intro bs
  induction bs with
  | nil => intro i s; simp [foldIdx]
  | cons b bs ih =>
    intro i s
    rw [foldIdx, ih, (trainIter_frame cfg or e s i b).2.2]
    simp
    omega

/-- One call to `train` increments the global `train_step` by exactly the
number of batches, and never resets it. -/
theorem train_train_step (cfg : Cfg) (or : Oracle) (tl : List Batch) (e : ℕ)
    (s : RunState) :
    (train cfg or tl e s).train_step = s.train_step + tl.length := by
  have h := trainFold_train_step cfg or e tl 0 s
  simp only [train]
  split_ifs <;> simp_all

/-- The training fold emits a progress line exactly at the iteration
indices divisible by `display_freq`. -/
theorem trainFold_progress (cfg : Cfg) (or : Oracle) (e : ℕ) :
    ∀ (bs : List Batch) (i : ℕ) (s : RunState),
      (foldIdx (trainIter cfg or e) s i bs).progress
        = s.progress ++ ((List.range' i bs.length).filter
            (fun j => decide (j % cfg.display_freq = 0))).map (fun j => (e, j)) := by
  intro bs
  induction bs with
  | nil => intro i s; simp [foldIdx]
  | cons b bs ih =>
    intro i s
    rw [foldIdx, ih, trainIter_progress]
    rw [List.length_cons, List.range'_succ, List.filter_cons]
    by_cases h : i % cfg.display_freq = 0
    · simp [h]
    · simp [h]

/-- `train` emits its progress lines exactly at the iteration indices
divisible by `display_freq`. -/
theorem train_progress (cfg : Cfg) (or : Oracle) (tl : List Batch) (e : ℕ)
    (s : RunState) :
    (train cfg or tl e s).progress
      = s.progress ++ ((List.range' 0 tl.length).filter
          (fun j => decide (j % cfg.display_freq = 0))).map (fun j => (e, j)) := by
  have h := trainFold_progress cfg or e tl 0 s
  simp only [train]
  split_ifs <;> simp_all

/-- Every line the training fold appends to a log file is a
`<epoch>_<iter>_<value>` line for an in-range display iteration. -/
theorem trainFold_files (cfg : Cfg) (or : Oracle) (e : ℕ) :
    ∀ (bs : List Batch) (i : ℕ) (s : RunState) (n : LogFileName),
      ∃ d, (foldIdx (trainIter cfg or e) s i bs).files n = s.files n ++ d ∧
        ∀ line ∈ d, ∃ j v, i ≤ j ∧ j < i + bs.length ∧
          j % cfg.display_freq = 0 ∧ line = trainLogLine e j v := by
  intro bs
  induction bs with
  | nil =>
    intro i s n
    exact ⟨[], by simp [foldIdx], by simp⟩
  | cons b bs ih =>
    intro i s n
    obtain ⟨d, hd, hP⟩ := ih (i + 1) (trainIter cfg or e s i b) n
    rw [foldIdx]
    refine ⟨(if i % cfg.display_freq = 0 then
        [trainLogLine e i (n.term (or.criterion s.model b))] else []) ++ d,
      ?_, ?_⟩
    · rw [hd, trainIter_files, List.append_assoc]
    · intro line hline
      rcases List.mem_append.1 hline with h0 | h1
      · split_ifs at h0 with hf
        · simp only [List.mem_singleton] at h0
          exact ⟨i, n.term (or.criterion s.model b), le_refl i,
            by simp only [List.length_cons]; omega, hf, h0⟩
        · simp at h0
      · obtain ⟨j, v, hj1, hj2, hj3, hl⟩ := hP line h1
        exact ⟨j, v, by omega, by simp only [List.length_cons]; omega, hj3, hl⟩

/-- `train` touches the log files only through the display block. -/
theorem train_files (cfg : Cfg) (or : Oracle) (tl : List Batch) (e : ℕ)
    (s : RunState) (n : LogFileName) :
    ∃ d, (train cfg or tl e s).files n = s.files n ++ d ∧
      ∀ line ∈ d, ∃ j v, j < tl.length ∧ j % cfg.display_freq = 0 ∧
        line = trainLogLine e j v := by
  obtain ⟨d, hd, hP⟩ := trainFold_files cfg or e tl 0 s n
  refine ⟨d, ?_, fun line hl => ?_⟩
  · simp only [train]
    split_ifs <;> simp_all
  · obtain ⟨j, v, _, hj2, hj3, hl'⟩ := hP line hl
    exact ⟨j, v, by omega, hj3, hl'⟩

/-- The per-batch loop only writes `num`-labelled (iteration) checkpoints:
the `"end"`-tagged ones are untouched. -/
theorem trainFold_endCheckpoints (cfg : Cfg) (or : Oracle) (e : ℕ)
    (bs : List Batch) (i : ℕ) (s : RunState) :
    endCheckpoints (foldIdx (trainIter cfg or e) s i bs) = endCheckpoints s := by
  refine foldIdx_pres (trainIter cfg or e) endCheckpoints ?_ bs i s
  intro s i b
  rw [endCheckpoints, endCheckpoints, trainIter_checkpoints, List.filter_append]
  split_ifs <;> simp [save_model, IterLabel.isEnd]

/-- `train` appends exactly one `"end"`-tagged checkpoint when
`epoch % save_freq == 0`, none otherwise; the checkpoint records the
current epoch. -/
theorem train_endCheckpoints (cfg : Cfg) (or : Oracle) (tl : List Batch)
    (e : ℕ) (s : RunState) :
    ∃ c : Checkpoint, c.label = .endTag ∧ c.state_dict.epoch = e ∧
      endCheckpoints (train cfg or tl e s) =
        endCheckpoints s ++ (if e % cfg.save_freq = 0 then [c] else []) := by
  have hfold := trainFold_endCheckpoints cfg or e tl 0 s
  simp only [train]
  split_ifs with h
  · refine ⟨save_model cfg (foldIdx (trainIter cfg or e) s 0 tl).model e
      (foldIdx (trainIter cfg or e) s 0 tl).sched.get_lr
      (foldIdx (trainIter cfg or e) s 0 tl).optimizer .endTag, rfl, rfl, ?_⟩
    show List.filter _ (_ ++ _) = _
    rw [List.filter_append, ← endCheckpoints, hfold]
    simp [save_model, IterLabel.isEnd, endCheckpoints]
  · exact ⟨Checkpoint.mk "" .endTag (StateDict.mk 0 e [] []),
      rfl, rfl, by simpa using hfold⟩

/-- Filtering the `"train"` pushes distributes over appended push lists. -/
theorem trainPushSteps_append (ps d : List ScalarPush) :
    (List.filter (fun p => p.tag == "train") (ps ++ d)).map (fun p => p.n_iter)
      = (List.filter (fun p => p.tag == "train") ps).map (fun p => p.n_iter)
        ++ (List.filter (fun p => p.tag == "train") d).map (fun p => p.n_iter) := by
  rw [List.filter_append, List.map_append]

/-- One training iteration preserves the global-step invariant. -/
theorem trainIter_stepInv (cfg : Cfg) (or : Oracle) (e : ℕ) (s : RunState)
    (i : ℕ) (b : Batch) (h : StepInv s) : StepInv (trainIter cfg or e s i b) := by
  obtain ⟨hc, hb⟩ := h
  have hp := trainIter_pushes cfg or e s i b
  have ht := (trainIter_frame cfg or e s i b).2.2
  have hsteps : trainPushSteps (trainIter cfg or e s i b)
      = trainPushSteps s
        ++ (if i % cfg.log_freq = 0 then [s.train_step + 1] else []) := by
    rw [trainPushSteps, hp, trainPushSteps_append]
    rw [trainPushSteps]
    split_ifs <;> simp
  constructor
  · rw [hsteps]
    by_cases hlog : i % cfg.log_freq = 0
    · rw [if_pos hlog]
      rw [List.chain'_append]
      refine ⟨hc, List.chain'_singleton _, ?_⟩
      intro x hx y hy
      simp only [List.head?_cons, Option.mem_def, Option.some.injEq] at hy
      subst hy
      obtain ⟨hne, hlast⟩ := List.mem_getLast?_eq_getLast hx
      have hxmem : x ∈ trainPushSteps s := hlast ▸ List.getLast_mem hne
      have := hb x hxmem
      omega
    · rw [if_neg hlog]
      simpa using hc
  · intro x hx
    rw [hsteps] at hx
    rw [ht]
    rcases List.mem_append.1 hx with h1 | h2
    · have := hb x h1; omega
    · split_ifs at h2 with hlog
      · simp only [List.mem_singleton] at h2; omega
      · simp at h2

/-- The whole per-batch loop preserves the global-step invariant. -/
theorem trainFold_stepInv (cfg : Cfg) (or : Oracle) (e : ℕ) :
    ∀ (bs : List Batch) (i : ℕ) (s : RunState),
      StepInv s → StepInv (foldIdx (trainIter cfg or e) s i bs) := by
  intro bs
  induction bs with
  | nil => intro i s h; exact h
  | cons b bs ih =>
    intro i s h
    exact ih (i + 1) _ (trainIter_stepInv cfg or e s i b h)

/-- `train` preserves the global-step invariant (the epoch-end checkpoint
and the scheduler advance touch neither the pushes nor `train_step`). -/
theorem train_stepInv (cfg : Cfg) (or : Oracle) (tl : List Batch) (e : ℕ)
    (s : RunState) (h : StepInv s) : StepInv (train cfg or tl e s) := by
  have hfold := trainFold_stepInv cfg or e tl 0 s h
  simp only [train]
  split_ifs <;> exact hfold

/-- `validation` preserves the global-step invariant: its single push is
tagged `"val"` and `train_step` is untouched. -/
theorem validation_stepInv (cfg : Cfg) (or : Oracle) (vl : List Batch)
    (e : ℕ) (s : RunState) (h : StepInv s) :
    StepInv (validation cfg or vl e s) := by
  obtain ⟨_, _, _, hts, _, _, _, p, hptag, _, hpushes⟩ :=
    validation_spec cfg or vl e s
  have hsteps : trainPushSteps (validation cfg or vl e s) = trainPushSteps s := by
    rw [trainPushSteps, hpushes, trainPushSteps_append]
    rw [trainPushSteps]
    simp [hptag]
  exact ⟨by rw [hsteps]; exact h.1, by rw [hsteps, hts]; exact h.2⟩

/-- One driver epoch advances the scheduler by exactly one step, with or
without a validation pass. -/
theorem epochStep_sched (cfg : Cfg) (or : Oracle) (tb vb : List Batch)
    (vs : Bool) (s : RunState) (e : ℕ) :
    (epochStep cfg or tb vb vs s e).sched = s.sched.step := by
  simp only [epochStep]
  split_ifs
  · rw [(validation_spec cfg or vb e (train cfg or tb e s)).2.2.1, train_sched]
  · exact train_sched cfg or tb e s

/-- Driving any list of epochs advances the scheduler once per epoch and
never changes its policy or base rate. -/
theorem foldl_epochStep_sched (cfg : Cfg) (or : Oracle) (tb vb : List Batch)
    (vs : Bool) : ∀ (es : List ℕ) (s : RunState),
    (es.foldl (epochStep cfg or tb vb vs) s).sched
      = { policy := s.sched.policy, base_lr := s.sched.base_lr,
          last_epoch := s.sched.last_epoch + es.length } := by
  intro es
  induction es with
  | nil => intro s; rw [List.length_nil, Nat.add_zero]; rfl
  | cons e es ih =>
    intro s
    rw [List.foldl_cons, ih, epochStep_sched]
    simp only [Scheduler.step, List.length_cons]
    congr 1
    omega

/-- A driver epoch without validation does not touch the validation-call
counter. -/
theorem epochStep_valCalls_false (cfg : Cfg) (or : Oracle)
    (tb vb : List Batch) (s : RunState) (e : ℕ) :
    (epochStep cfg or tb vb false s e).valCalls = s.valCalls := by
  simp only [epochStep, Bool.false_eq_true, if_false]
  exact train_valCalls cfg or tb e s

/-- Driving any list of epochs without validation never calls the
validation loop. -/
theorem foldl_epochStep_valCalls (cfg : Cfg) (or : Oracle)
    (tb vb : List Batch) : ∀ (es : List ℕ) (s : RunState),
    (es.foldl (epochStep cfg or tb vb false) s).valCalls = s.valCalls := by
  intro es
  induction es with
  | nil => intro s; rfl
  | cons e es ih =>
    intro s
    rw [List.foldl_cons, ih, epochStep_valCalls_false]

/-- A state with no pushes recorded satisfies the global-step invariant. -/
theorem stepInv_of_no_pushes (s : RunState) (h : s.pushes = []) : StepInv s := by
  have hempty : trainPushSteps s = [] := by rw [trainPushSteps, h]; rfl
  refine ⟨by rw [hempty]; simp, by rw [hempty]; intro x hx; cases hx⟩

/-- One driver epoch preserves the global-step invariant. -/
theorem epochStep_stepInv (cfg : Cfg) (or : Oracle) (tb vb : List Batch)
    (vs : Bool) (s : RunState) (e : ℕ) (h : StepInv s) :
    StepInv (epochStep cfg or tb vb vs s e) := by
  simp only [epochStep]
  split_ifs
  · exact validation_stepInv cfg or vb e _ (train_stepInv cfg or tb e s h)
  · exact train_stepInv cfg or tb e s h

/-- Driving any list of epochs preserves the global-step invariant. -/
theorem foldl_epochStep_stepInv (cfg : Cfg) (or : Oracle)
    (tb vb : List Batch) (vs : Bool) : ∀ (es : List ℕ) (s : RunState),
    StepInv s → StepInv (es.foldl (epochStep cfg or tb vb vs) s) := by
  intro es
  induction es with
  | nil => intro s h; exact h
  | cons e es ih =>
    intro s h
    exact ih _ (epochStep_stepInv cfg or tb vb vs s e h)

/-! ### Claim theorems -/

/-- Fold form of the meter: the running sum accumulates the values and the
count accumulates their number. -/
theorem meter_foldl_spec (vs : List ℚ) : ∀ m : AverageMeter,
    (vs.foldl AverageMeter.update m).sum = m.sum + vs.sum ∧
    (vs.foldl AverageMeter.update m).count = m.count + vs.length := by
  induction vs with
  | nil => intro m; simp
  | cons v vs ih =>
    intro m
    simp only [List.foldl_cons, List.sum_cons, List.length_cons]
    obtain ⟨h1, h2⟩ := ih (m.update v)
    refine ⟨?_, ?_⟩
    · rw [h1]; simp only [AverageMeter.update]; ring
    · rw [h2]; simp only [AverageMeter.update]; omega

/-- C5: for every non-empty sequence of `update(v)` calls on the metric
accumulator, `avg` equals the arithmetic mean of all values passed so far,
and after exactly one update it equals that first value. -/
theorem C5_averageMeter_mean (vs : List ℚ) (h : vs ≠ []) :
    (meterOf vs).avg = vs.sum / (vs.length : ℚ) ∧
      ∀ v : ℚ, (meterOf [v]).avg = v := by
  constructor
  · obtain ⟨h1, h2⟩ := meter_foldl_spec vs {}
    simp only [meterOf, AverageMeter.avg]
    rw [h1, h2]
    norm_num
  · intro v
    simp [meterOf, AverageMeter.update, AverageMeter.avg]

/-- Witness for C5 at the concrete update sequence `[3, 5]`. -/
theorem C5_averageMeter_mean_witness :
    ([3, 5] : List ℚ) ≠ [] ∧
      ((meterOf [3, 5]).avg = ([3, 5] : List ℚ).sum / (([3, 5] : List ℚ).length : ℚ) ∧
        ∀ v : ℚ, (meterOf [v]).avg = v) :=
  ⟨by decide, C5_averageMeter_mean [3, 5] (by decide)⟩

/-- C1 counterexample: the claim says the load operation does not mutate
the live model.  But `load_model` executes
`model.load_state_dict(state_dict['model'])`: loading a record whose saved
weights are `[1, 2]` into a model whose parameters are `[0]` leaves the
model with parameters `[1, 2]`, not `[0]`. -/
theorem C1_load_counterexample :
    ¬ ((load_model [(0 : ℚ)]
        { lr := 1, epoch := 7, model := [(1 : ℚ), 2], optimizer := [(3 : ℚ)] }).1
      = [(0 : ℚ)]) := by
  decide

/-- C1 (amended): given a saved checkpoint, `load_model` restores exactly
the saved model weights into the live model — mutating it, whatever its
prior parameters were — and returns nothing (`None`); the `epoch`, `lr`
and `optimizer` fields of the record are neither returned nor restored
(no optimizer object is even passed to `load_model`). -/
theorem C1_load_restores_model_only (cfg : Cfg) (m mSaved : ModelState)
    (epoch : ℕ) (lr : ℚ) (opt : OptState) (label : IterLabel) :
    load_model m (save_model cfg mSaved epoch lr opt label).state_dict
      = (mSaved, ()) := rfl

/-- C10: if the configured dataset is neither `'total-text'` nor
`'synth-text'`, the selection falls through silently (`else: pass`) and
`main` aborts with an unbound-variable error on `trainset` while building
the training data loader: the step trace is empty, so no model, loss or
optimizer is constructed and no training iteration runs. -/
theorem C10_unknown_dataset (cfg : Cfg) (or : Oracle) (model0 : ModelState)
    (opt0 : OptState) (rd : StateDict) (tb vb : List Batch) (f0 : LogFiles)
    (h1 : cfg.dataset ≠ "total-text") (h2 : cfg.dataset ≠ "synth-text") :
    main cfg or model0 opt0 rd tb vb f0
      = ([], .error (.nameError "trainset")) := by
  simp [main, h1, h2]

/-- C3: for every model state and every sequence of validation batches,
running the validation loop never mutates the model parameters (nor the
optimizer state): gradients are disabled for the whole loop and no
backward pass or optimizer step occurs. -/
theorem C3_validation_no_param_mutation (cfg : Cfg) (or : Oracle)
    (vl : List Batch) (e : ℕ) (s : RunState) :
    (validation cfg or vl e s).model = s.model ∧
    (validation cfg or vl e s).optimizer = s.optimizer := by
  obtain ⟨h1, h2, _⟩ := validation_spec cfg or vl e s
  exact ⟨h1, h2⟩

/-- C4: when the configured dataset is `'synth-text'`, `main` completes
with `valset = None`, and its epoch loop never invokes the validation
loop in any epoch of the run. -/
theorem C4_synth_no_validation (cfg : Cfg) (or : Oracle) (m0 : ModelState)
    (o0 : OptState) (rd : StateDict) (tb vb : List Batch) (f0 : LogFiles)
    (h : cfg.dataset = "synth-text") :
    ∃ s, (main cfg or m0 o0 rd tb vb f0).2 = .ok s ∧ s.valCalls = 0 := by
  simp [main, h]
  simp only [epochLoop]
  rw [foldl_epochStep_valCalls]

/-- Witness for C4 on a concrete `synth-text` run. -/
theorem C4_synth_no_validation_witness :
    (exCfg "synth-text").dataset = "synth-text" ∧
      ∃ s, (main (exCfg "synth-text") exOracle [] [] rd0 exBatches4 []
          exFiles).2 = .ok s ∧ s.valCalls = 0 :=
  ⟨rfl, C4_synth_no_validation _ _ _ _ _ _ _ _ rfl⟩

/-- C2: the scheduler is advanced exactly once per training epoch,
regardless of how many batches the epoch contains; after `e` completed
epochs the step-decay schedule built for the manually-annotated corpus
(`StepLR(step_size=100, gamma=0.1)`) yields
`initial_lr * 0.1 ^ (e / 100)`, the fixed schedule built for the synthetic
corpus yields `initial_lr` for ever; and a full `main` run on either
corpus ends with exactly those learning rates. -/
theorem C2_lr_schedule (cfg : Cfg) (or : Oracle) (m0 : ModelState)
    (o0 : OptState) (rd : StateDict) (tb vb : List Batch) (f0 : LogFiles)
    (valset : Bool) (es : List ℕ) (s : RunState) :
    (∀ (tl : List Batch) (e : ℕ) (s' : RunState),
        (train cfg or tl e s').sched.last_epoch = s'.sched.last_epoch + 1)
  ∧ ((es.foldl (epochStep cfg or tb vb valset) s).sched.last_epoch
      = s.sched.last_epoch + es.length)
  ∧ (s.sched = Scheduler.mk (.stepLR 100 (1 / 10)) cfg.lr 0 →
      (es.foldl (epochStep cfg or tb vb valset) s).sched.get_lr
        = cfg.lr * (1 / 10 : ℚ) ^ (es.length / 100))
  ∧ (s.sched.policy = .fixLR →
      (es.foldl (epochStep cfg or tb vb valset) s).sched.get_lr
        = s.sched.base_lr)
  ∧ (∀ s' : RunState, cfg.dataset = "total-text" →
      (main cfg or m0 o0 rd tb vb f0).2 = .ok s' →
      s'.sched.get_lr
        = cfg.lr * (1 / 10 : ℚ) ^ ((cfg.max_epoch - cfg.start_epoch) / 100))
  ∧ (∀ s' : RunState, cfg.dataset = "synth-text" →
      (main cfg or m0 o0 rd tb vb f0).2 = .ok s' →
      s'.sched.get_lr = cfg.lr) := by
  refine ⟨?_, ?_, ?_, ?_, ?_, ?_⟩
  · intro tl e s'
    rw [train_sched]
    rfl
  · rw [foldl_epochStep_sched]
  · intro hs
    rw [foldl_epochStep_sched, hs]
    simp [Scheduler.get_lr]
  · intro hp
    rw [foldl_epochStep_sched]
    simp [Scheduler.get_lr, hp]
  · intro s' hd hok
    simp [main, hd] at hok
    rw [← hok]
    simp only [epochLoop]
    rw [foldl_epochStep_sched]
    simp [Scheduler.get_lr, List.length_range']
  · intro s' hd hok
    simp [main, hd] at hok
    rw [← hok]
    simp only [epochLoop]
    rw [foldl_epochStep_sched]
    simp [Scheduler.get_lr]

/-- Witness for C2: the step-decay and fixed formulas at concrete runs of
three epochs, and the per-epoch advance at a concrete epoch. -/
theorem C2_lr_schedule_witness :
    ((([5, 6, 7] : List ℕ).foldl
        (epochStep (exCfg "total-text") exOracle exBatches4 [] true)
        exState).sched.get_lr
      = (exCfg "total-text").lr
          * (1 / 10 : ℚ) ^ (([5, 6, 7] : List ℕ).length / 100))
  ∧ ((([5, 6, 7] : List ℕ).foldl
        (epochStep (exCfg "synth-text") exOracle exBatches4 [] false)
        (exState0 (exCfg "synth-text") .fixLR)).sched.get_lr
      = (exState0 (exCfg "synth-text") .fixLR).sched.base_lr) := by
  constructor
  · exact (C2_lr_schedule (exCfg "total-text") exOracle [] [] rd0
      exBatches4 [] exFiles true [5, 6, 7] exState).2.2.1 rfl
  · exact (C2_lr_schedule (exCfg "synth-text") exOracle [] [] rd0
      exBatches4 [] exFiles false [5, 6, 7]
      (exState0 (exCfg "synth-text") .fixLR)).2.2.2.1 rfl

/-- C6: with `save_freq = 5`, a checkpoint tagged `"end"` is written after
every epoch whose index is a multiple of 5 (0, 5, 10, ...) — recording that
epoch — and never after any other epoch. -/
theorem C6_end_checkpoint_freq (cfg : Cfg) (or : Oracle) (tl : List Batch)
    (e : ℕ) (s : RunState) (h : cfg.save_freq = 5) :
    (e % 5 = 0 → ∃ c : Checkpoint, c.label = .endTag ∧
        c.state_dict.epoch = e ∧
        endCheckpoints (train cfg or tl e s) = endCheckpoints s ++ [c])
  ∧ (e % 5 ≠ 0 →
        endCheckpoints (train cfg or tl e s) = endCheckpoints s) := by
  obtain ⟨c, hc1, hc2, hc3⟩ := train_endCheckpoints cfg or tl e s
  rw [h] at hc3
  constructor
  · intro he
    exact ⟨c, hc1, hc2, by rw [hc3, if_pos he]⟩
  · intro he
    rw [hc3, if_neg he, List.append_nil]

/-- Witness for C6 at `save_freq = 5` with epochs 10 and 3. -/
theorem C6_end_checkpoint_freq_witness :
    ((exCfg "total-text").save_freq = 5 ∧ 10 % 5 = 0 ∧
      ∃ c : Checkpoint, c.label = .endTag ∧ c.state_dict.epoch = 10 ∧
        endCheckpoints (train (exCfg "total-text") exOracle exBatches4 10
          exState) = endCheckpoints exState ++ [c])
  ∧ (3 % 5 ≠ 0 ∧
      endCheckpoints (train (exCfg "total-text") exOracle exBatches4 3
        exState) = endCheckpoints exState) :=
  ⟨⟨rfl, rfl, (C6_end_checkpoint_freq (exCfg "total-text") exOracle
      exBatches4 10 exState rfl).1 rfl⟩,
   ⟨by decide, (C6_end_checkpoint_freq (exCfg "total-text") exOracle
      exBatches4 3 exState rfl).2 (by decide)⟩⟩

/-- C7: over a training epoch with exactly 4 batches and
`display_freq = 2`, exactly two progress lines are emitted, at iteration
indices 0 and 2. -/
theorem C7_display_progress (cfg : Cfg) (or : Oracle) (tl : List Batch)
    (e : ℕ) (s : RunState) (h1 : cfg.display_freq = 2)
    (h2 : tl.length = 4) :
    (train cfg or tl e s).progress = s.progress ++ [(e, 0), (e, 2)] := by
  rw [train_progress]
  simp only [h1, h2]
  have hfilter : (List.range' 0 4).filter (fun j => decide (j % 2 = 0))
      = [0, 2] := by decide
  rw [hfilter]
  rfl

/-- Witness for C7 on a concrete 4-batch epoch. -/
theorem C7_display_progress_witness :
    (exCfg "total-text").display_freq = 2 ∧ exBatches4.length = 4 ∧
      (train (exCfg "total-text") exOracle exBatches4 9 exState).progress
        = exState.progress ++ [(9, 0), (9, 2)] :=
  ⟨rfl, rfl,
    C7_display_progress (exCfg "total-text") exOracle exBatches4 9 exState
      rfl rfl⟩

/-- Every line the validation fold appends to a log file is an
`<epoch>_validation_<value>` line. -/
theorem valFold_files (cfg : Cfg) (or : Oracle) (e : ℕ) :
    ∀ (bs : List Batch) (i : ℕ) (sm : RunState × ValMeters) (n : LogFileName),
      ∃ d, (foldIdx (valIter cfg or e) sm i bs).1.files n
          = sm.1.files n ++ d ∧
        ∀ line ∈ d, ∃ v, line = valLogLine e v := by
  intro bs
  induction bs with
  | nil =>
    intro i sm n
    exact ⟨[], by simp [foldIdx], by simp⟩
  | cons b bs ih =>
    intro i sm n
    obtain ⟨d, hd, hP⟩ := ih (i + 1) (valIter cfg or e sm i b) n
    rw [foldIdx]
    refine ⟨(if i % cfg.display_freq = 0 then
        [valLogLine e (n.term (or.criterion sm.1.model b))] else []) ++ d,
      ?_, ?_⟩
    · rw [hd, valIter_files, List.append_assoc]
    · intro line hline
      rcases List.mem_append.1 hline with h0 | h1
      · split_ifs at h0 with hf
        · simp only [List.mem_singleton] at h0
          exact ⟨n.term (or.criterion sm.1.model b), h0⟩
        · simp at h0
      · exact hP line h1

/-- `validation` touches the log files only through its display block. -/
theorem validation_files (cfg : Cfg) (or : Oracle) (vl : List Batch)
    (e : ℕ) (s : RunState) (n : LogFileName) :
    ∃ d, (validation cfg or vl e s).files n = s.files n ++ d ∧
      ∀ line ∈ d, ∃ v, line = valLogLine e v := by
  obtain ⟨d, hd, hP⟩ := valFold_files cfg or e vl 0
    ({ s with valCalls := s.valCalls + 1 }, ({} : ValMeters)) n
  exact ⟨d, hd, hP⟩

/-- C8: the six per-term log files are append-only; every record the
training loop appends is a single `<epoch>_<iter>_<value:.4f>` line whose
middle field is a display-interval iteration index of that epoch, and
every record the validation loop appends is a single
`<epoch>_validation_<value:.4f>` line. -/
theorem C8_log_line_format (cfg : Cfg) (or : Oracle) (tl vl : List Batch)
    (e : ℕ) (s : RunState) :
    (∀ n : LogFileName, ∃ d, (train cfg or tl e s).files n = s.files n ++ d ∧
        ∀ line ∈ d, ∃ j v, j < tl.length ∧ j % cfg.display_freq = 0 ∧
          line = trainLogLine e j v)
  ∧ (∀ n : LogFileName, ∃ d,
        (validation cfg or vl e s).files n = s.files n ++ d ∧
        ∀ line ∈ d, ∃ v, line = valLogLine e v) :=
  ⟨fun n => train_files cfg or tl e s n,
   fun n => validation_files cfg or vl e s n⟩

/-- C9: the global step counter used to tag `"train"` scalar pushes
increases by exactly one per training iteration, accumulates across
epochs (one epoch adds its batch count), is untouched by validation, and
consequently the step values of the `"train"` pushes of any completed
`main` run are strictly increasing. -/
theorem C9_global_step (cfg : Cfg) (or : Oracle) (m0 : ModelState)
    (o0 : OptState) (rd : StateDict) (tb vb : List Batch) (f0 : LogFiles) :
    (∀ (e : ℕ) (s : RunState) (i : ℕ) (b : Batch),
        (trainIter cfg or e s i b).train_step = s.train_step + 1)
  ∧ (∀ (tl : List Batch) (e : ℕ) (s : RunState),
        (train cfg or tl e s).train_step = s.train_step + tl.length)
  ∧ (∀ (vl : List Batch) (e : ℕ) (s : RunState),
        (validation cfg or vl e s).train_step = s.train_step)
  ∧ (∀ s' : RunState, (main cfg or m0 o0 rd tb vb f0).2 = .ok s' →
        List.Chain' (· < ·) (trainPushSteps s')) := by
  refine ⟨fun e s i b => (trainIter_frame cfg or e s i b).2.2,
    fun tl e s => train_train_step cfg or tl e s,
    fun vl e s => (validation_spec cfg or vl e s).2.2.2.1, ?_⟩
  intro s' hok
  by_cases hd : cfg.dataset = "total-text" ∨ cfg.dataset = "synth-text"
  · simp only [main, if_pos hd] at hok
    rw [Except.ok.injEq] at hok
    rw [← hok]
    simp only [epochLoop]
    refine (foldl_epochStep_stepInv cfg or tb vb _ _ _ ?_).1
    exact stepInv_of_no_pushes _ rfl
  · simp only [main, if_neg hd] at hok
    cases hok

/-- Witness for C9 on a concrete completed `total-text` run. -/
theorem C9_global_step_witness :
    List.Chain' (· < ·) (trainPushSteps
      (epochLoop (exCfg "total-text") exOracle exBatches4 [] true
        (exState0 (exCfg "total-text") (.stepLR 100 (1 / 10))))) :=
  (C9_global_step (exCfg "total-text") exOracle [] [] rd0 exBatches4 []
    exFiles).2.2.2 _ rfl

/-- Witness for C10 at the concrete dataset name `"foo"`. -/
theorem C10_unknown_dataset_witness :
    (exCfg "foo").dataset ≠ "total-text" ∧ (exCfg "foo").dataset ≠ "synth-text" ∧
      main (exCfg "foo") exOracle [] []
          { lr := 0, epoch := 0, model := [], optimizer := [] } [] [] exFiles
        = ([], .error (.nameError "trainset")) :=
  ⟨by decide, by decide,
    C10_unknown_dataset _ _ _ _ _ _ _ _ (by decide) (by decide)⟩

end TextSnake
